import Mathlib

set_option maxRecDepth 16384
set_option maxHeartbeats 2000000

/-!
Verification of the transform-dialect spec renderer (`build_td_spec` in
`sharktuner/spec_builder.py`) and of the frozen-prompt helper
(`get_frozen_test_text_prompts` in `sharktank/utils/testing.py`), as a
shallow embedding in Lean.

The external IREE IR object model (operations, attributes, SSA values and
the textual printer) is modelled by concrete Lean structures exposing
exactly the capability set the Python code uses: attribute lookup /
deletion / insertion by name, a deterministic textual serialization, and
ordered operand enumeration with name and type queries.
-/

namespace SpecBuilder

/-- Models an MLIR attribute as seen by `spec_builder.py`: either the
zero-payload `ir.UnitAttr`, or an attribute of any other concrete kind
(carrying its printed payload). -/
inductive Attr where
  | unit : Attr
  | other : String → Attr
deriving DecidableEq, Repr

/-- Models an MLIR SSA value (an operand of the root op).  `id` stands for
the Python object identity used by the `captured_values` set membership
test; `name` is `operand.get_name()`; `ty` is `str(operand.type)`. -/
structure Value where
  id : Nat
  name : String
  ty : String
deriving DecidableEq, Repr

/-- Models `ir.Operation` as used by `build_td_spec`: an attribute
dictionary (`op.opview.attributes`), the ordered operand list
(`op.operands`), and the marker-independent part of the printed form. -/
structure Op where
  attrs : List (String × Attr)
  operands : List Value
  body : String
deriving DecidableEq, Repr

/-- `ROOT_OP_ATTR_NAME = "root_op"` from `spec_builder.py`. -/
def ROOT_OP_ATTR_NAME : String := "root_op"

/-- Models `name in op.opview.attributes` / `op.opview.attributes[name]`:
dictionary lookup by attribute name. -/
def Op.getAttr (op : Op) (k : String) : Option Attr :=
  op.attrs.lookup k

/-- Models `del op.opview.attributes[name]`. -/
def Op.delAttr (op : Op) (k : String) : Op :=
  { op with attrs := op.attrs.filter (fun p => p.1 ≠ k) }

/-- Models `op.opview.attributes[name] = v` with Python dict semantics:
replace in place when the key is present, append otherwise. -/
def Op.setAttr (op : Op) (k : String) (v : Attr) : Op :=
  if (op.attrs.lookup k).isSome then
    { op with attrs := op.attrs.map (fun p => if p.1 = k then (k, v) else p) }
  else
    { op with attrs := op.attrs ++ [(k, v)] }

/-- Models `Attribute` printing inside the operation's serialization. -/
def Attr.render : Attr → String
  | Attr.unit => "unit"
  | Attr.other s => s

/-- Models the external MLIR printer (`str(op)`): a deterministic rendering
of the operation state, covering both the attribute dictionary and the rest
of the printed form.  The real printer lives in the IREE bindings; only its
determinism and its dependence on the full operation state matter here. -/
def Op.serialize (op : Op) : String :=
  op.body ++ " attributes=["
    ++ String.intercalate ", " (op.attrs.map (fun p => p.1 ++ " = " ++ Attr.render p.2))
    ++ "]"

/-- Models `common.TuningConfiguration`: a name together with the literal
textual form of the configuration value (`str(config.configuration)`). -/
structure TuningConfiguration where
  name : String
  configuration : String
deriving DecidableEq, Repr

/-- The error raised by the `assert isinstance(..., ir.UnitAttr)` contract
check in `build_td_spec` (the spec's `ContractViolation`). -/
inductive BuildError where
  | contractViolation : BuildError
deriving DecidableEq, Repr

/-- One block-argument declaration `f"{ssa_name}: {operand_type}"` emitted
for an operand. -/
def bbargEntry (v : Value) : String :=
  v.name ++ ": " ++ v.ty

/-- The operand loop of `build_td_spec`: walks `op.operands` in order,
skipping operands already in `captured_values` (each skip logs one
warning), and collecting one block-argument declaration per new operand.
Returns the `bbargs` list and the number of warnings logged.  The Python
`set` is modelled by the list of captured values. -/
def collectBbargs : List Value → List Value → List String × Nat
  | [], _ => ([], 0)
  | operand :: rest, captured_values =>
    if operand ∈ captured_values then
      let r := collectBbargs rest captured_values
      (r.1, r.2 + 1)
    else
      let r := collectBbargs rest (operand :: captured_values)
      (bbargEntry operand :: r.1, r.2)

/-- `config_var = f"%{config.name}_{i}"`. -/
def config_var (config : TuningConfiguration) (i : Nat) : String :=
  "%" ++ config.name ++ "_" ++ Nat.repr i

/-- One `transform.param.constant` line of the matcher body. -/
def config_line (config : TuningConfiguration) (i : Nat) : String :=
  config_var config i ++ " = transform.param.constant " ++ config.configuration
    ++ " -> !transform.any_param"

/-- One parameter of the annotation sequence, `f"%cfg_{i}: ..."`. -/
def annotation_arg (i : Nat) : String :=
  "%cfg_" ++ Nat.repr i ++ ": !transform.any_param \x7btransform.readonly\x7d"

/-- One `transform.annotate` line of the annotation sequence. -/
def annotation_line (config : TuningConfiguration) (i : Nat) : String :=
  "                transform.annotate %op \"" ++ config.name ++ "\" = %cfg_"
    ++ Nat.repr i ++ " : !transform.any_op, !transform.any_param"

/-- The module header of the emitted spec text, up to the first named
sequence. -/
def moduleHeaderText : String :=
  "        module attributes \x7b transform.with_named_sequence, iree_codegen.tuning_spec_with_default_entrypoint \x7d \x7b\n        // Annotation Transform\n        "

/-- The annotation sequence `@apply_op_config` of the emitted spec text. -/
def annotationSeqText (annotation_args annotation_lines : String) : String :=
  "transform.named_sequence @apply_op_config(%op: !transform.any_op \x7btransform.readonly\x7d, "
    ++ annotation_args ++ ") \x7b\n        " ++ annotation_lines
    ++ "\n            transform.yield\n        \x7d"

/-- The separator between the annotation sequence and the matcher. -/
def matcherSepText : String :=
  "\n\n        // Custom Op Matcher\n        "

/-- The matcher sequence named by the caller-supplied `func_name`. -/
def matcherSeqText (func_name yield_types bbargs_str root_operation config_block yield_list : String) : String :=
  "transform.named_sequence @" ++ func_name
    ++ "(%cont: !transform.any_op \x7btransform.readonly\x7d)\n            -> ("
    ++ yield_types
    ++ ") \x7b\n            %ins, %outs = transform.iree.match.cast_compatible_dag_from_root %cont \x7b\n              ^bb0("
    ++ bbargs_str ++ "):\n              " ++ root_operation
    ++ "\n            \x7d : (!transform.any_op) -> (!transform.any_value, !transform.any_value)\n            "
    ++ config_block ++ "\n            transform.yield " ++ yield_list ++ " : " ++ yield_types
    ++ "\n        \x7d"

/-- The separator between the matcher and the entry point. -/
def entrySepText : String :=
  "\n\n        // Entry Point\n        "

/-- The fixed entry-point sequence `@__kernel_config` of the emitted spec
text: a `transform.foreach_match` over all matches of `func_name`, applying
`@apply_op_config` to each and yielding the resulting root. -/
def entryPointSeqText (func_name : String) : String :=
  "transform.named_sequence\n        @__kernel_config(%variant_op: !transform.any_op \x7btransform.consumed\x7d) -> !transform.any_op\n            attributes \x7b iree_codegen.tuning_spec_entrypoint \x7d \x7b\n            %res = transform.foreach_match in %variant_op\n                @"
    ++ func_name
    ++ " -> @apply_op_config\n            : (!transform.any_op) -> !transform.any_op\n            transform.yield %res : !transform.any_op\n        \x7d"

/-- The closing brace of the emitted module. -/
def moduleFooterText : String :=
  "\n    \x7d"

/-- All intermediate products of `build_td_spec`, mirroring its local
variables, together with the final `spec_text`.  The `warnings` field
counts the `logging.warning` calls made by the operand loop. -/
structure SpecOut where
  bbargs : List String
  warnings : Nat
  bbargs_str : String
  config_lines : List String
  yield_vars : List String
  config_block : String
  yield_list : String
  yield_types : String
  annotation_args : String
  annotation_lines_list : List String
  annotation_lines : String
  root_operation : String
  spec_text : String
deriving DecidableEq, Repr

/-- Shallow embedding of `build_td_spec` from `spec_builder.py`.  The first
component is the rendered spec (or the contract-violation error raised by
the `assert`); the second component is the final state of the caller's
operation object, which the Python code mutates in place (marker removed,
then restored). -/
def build_td_spec (op : Op) (config_list : List TuningConfiguration)
    (func_name : String) : Except BuildError SpecOut × Op :=
  let has_root_attr := (op.getAttr ROOT_OP_ATTR_NAME).isSome
  if has_root_attr ∧ op.getAttr ROOT_OP_ATTR_NAME ≠ some Attr.unit then
    (Except.error BuildError.contractViolation, op)
  else
    let op1 := if has_root_attr then op.delAttr ROOT_OP_ATTR_NAME else op
    let root_operation := op1.serialize
    let op2 := if has_root_attr then op1.setAttr ROOT_OP_ATTR_NAME Attr.unit else op1
    let cb := collectBbargs op.operands []
    let bbargs := cb.1
    let warnings := cb.2
    let bbargs_str := String.intercalate ", " bbargs
    let config_lines := config_list.enum.map (fun p => config_line p.2 p.1)
    let yield_vars := config_list.enum.map (fun p => config_var p.2 p.1)
    let config_block := String.intercalate "\n                " config_lines
    let yield_list := String.intercalate ", " ("%cont" :: yield_vars)
    let yield_types := String.intercalate ", "
      ("!transform.any_op" :: List.replicate yield_vars.length "!transform.any_param")
    let annotation_args := String.intercalate ", "
      ((List.range config_list.length).map annotation_arg)
    let annotation_lines_list := config_list.enum.map (fun p => annotation_line p.2 p.1)
    let annotation_lines := String.intercalate "\n" annotation_lines_list
    let spec_text := moduleHeaderText
      ++ annotationSeqText annotation_args annotation_lines
      ++ matcherSepText
      ++ matcherSeqText func_name yield_types bbargs_str root_operation config_block yield_list
      ++ entrySepText
      ++ entryPointSeqText func_name
      ++ moduleFooterText
    (Except.ok
      { bbargs := bbargs
        warnings := warnings
        bbargs_str := bbargs_str
        config_lines := config_lines
        yield_vars := yield_vars
        config_block := config_block
        yield_list := yield_list
        yield_types := yield_types
        annotation_args := annotation_args
        annotation_lines_list := annotation_lines_list
        annotation_lines := annotation_lines
        root_operation := root_operation
        spec_text := spec_text }, op2)

/-- The first-occurrence sublist of a value list relative to an
already-seen list: the operands for which the loop of `build_td_spec`
emits a block-argument declaration, in order. -/
def firstOccs : List Value → List Value → List Value
  | [], _ => []
  | v :: rest, seen =>
    if v ∈ seen then firstOccs rest seen else v :: firstOccs rest (v :: seen)

/-- Following the spec's words for the matcher yield (claim C4), for
comparison with the code's behaviour: the matcher is said to yield "the
matched operand values" — the results `%ins, %outs` of the
`cast_compatible_dag_from_root` match operation — followed by one result
per configuration. -/
def spec_claimed_yield_list (out : SpecOut) : String :=
  String.intercalate ", " ("%ins" :: "%outs" :: out.yield_vars)

/-- The decimal digits of a natural number, as characters, most
significant first (the contents of `Nat.repr`). -/
def natDigits (n : Nat) : List Char :=
  if _h : n < 10 then [Nat.digitChar n]
  else natDigits (n / 10) ++ [Nat.digitChar (n % 10)]
decreasing_by exact Nat.div_lt_self (by omega) (by omega)

/-- Reads a decimal digit string back into a natural number. -/
def decodeDigits (l : List Char) : Nat :=
  l.foldl (fun a c => 10 * a + (c.toNat - 48)) 0

/-- The characters of an annotation line between its first pair of double
quotes: recovers the configuration name from a `transform.annotate`
line whose name contains no quote character. -/
def nameBetweenQuotes (s : String) : List Char :=
  ((s.data.dropWhile (fun c => c ≠ '\"')).drop 1).takeWhile (fun c => c ≠ '\"')

end SpecBuilder

namespace Testing

/-!
Shallow embedding of `get_frozen_test_text_prompts` from
`sharktank/utils/testing.py`.  Python's global `random` module and the
external dataset loader are collaborators outside the repository; they are
modelled abstractly but deterministically: the generator state is a
natural number, `random.seed` maps the seed to a state, and
`random.sample` is any deterministic function of (state, population,
sample size) that fails exactly when the sample size exceeds the
population and advances the state on success.
-/

/-- Models the state of Python's global random number generator
(`random.getstate()` / `random.setstate(...)`). -/
abbrev RngState := Nat

/-- Models `random.seed(n)`: the generator state obtained from seed `n`. -/
def seedState (n : Nat) : RngState := n

/-- Models `random.sample(population, k)`: deterministic in the generator
state, raising `ValueError` (modelled as `Except.error`) when `k` exceeds
the population size, and advancing the state on success. -/
def randomSample (st : RngState) (population : List String) (k : Nat) :
    Except String (List String × RngState) :=
  if k ≤ population.length then
    Except.ok ((population.rotate st).take k, st + 1)
  else
    Except.error "Sample larger than population or is negative"

/-- Shallow embedding of `get_random_test_text_prompts`: filters the
dataset rows by minimum length when requested and samples
`num_prompts` of them with the current generator state.  The wikitext
dataset loaded by `load_dataset` is an external input, passed explicitly. -/
def get_random_test_text_prompts (dataset : List String) (st : RngState)
    (num_prompts : Nat) (min_prompt_length : Option Nat) :
    Except String (List String × RngState) :=
  let prompts := match min_prompt_length with
    | some m => dataset.filter (fun p => m ≤ p.length)
    | none => dataset
  randomSample st prompts num_prompts

/-- Shallow embedding of `get_frozen_test_text_prompts`: saves the
generator state, seeds with the fixed constant `13910398`, draws the
prompts, and — via `try`/`finally` — restores the saved state on both the
normal and the exceptional exit (the exception, if any, propagates).  The
second component of the result is the generator state after the call. -/
def get_frozen_test_text_prompts (dataset : List String) (st : RngState)
    (num_prompts : Nat) (min_prompt_length : Option Nat) :
    Except String (List String) × RngState :=
  let orig_rng_state := st
  let seeded := seedState 13910398
  match get_random_test_text_prompts dataset seeded num_prompts min_prompt_length with
  | Except.ok (res, _) => (Except.ok res, orig_rng_state)
  | Except.error e => (Except.error e, orig_rng_state)

end Testing

namespace SpecBuilder

theorem lookup_filter_ne (l : List (String × Attr)) {k R : String} (hk : k ≠ R) :
    (l.filter fun p => p.1 ≠ R).lookup k = l.lookup k := by
  induction l with
  | nil => rfl
  | cons p t ih =>
    by_cases hp : p.1 = R
    · have hpk : (k == p.1) = false := beq_eq_false_iff_ne.mpr (by rw [hp]; exact hk)
      rw [List.filter_cons_of_neg (by simpa using hp)]
      cases p with
      | mk pk pv =>
        simp only [List.lookup_cons] at hpk ⊢
        rw [hpk]
        exact ih
    · rw [List.filter_cons_of_pos (by simpa using hp)]
      cases p with
      | mk pk pv =>
        simp only [List.lookup_cons]
        cases hpk : k == pk with
        | true => rfl
        | false => exact ih

theorem lookup_filter_self (l : List (String × Attr)) (R : String) :
    (l.filter fun p => p.1 ≠ R).lookup R = none := by
  induction l with
  | nil => rfl
  | cons p t ih =>
    by_cases hp : p.1 = R
    · rw [List.filter_cons_of_neg (by simpa using hp)]
      exact ih
    · rw [List.filter_cons_of_pos (by simpa using hp)]
      cases p with
      | mk pk pv =>
        have hpk : (R == pk) = false := beq_eq_false_iff_ne.mpr (fun h => hp h.symm)
        simp only [List.lookup_cons, hpk]
        exact ih

theorem lookup_append_single_self (l : List (String × Attr)) (R : String) (v : Attr)
    (h : l.lookup R = none) : (l ++ [(R, v)]).lookup R = some v := by
  induction l with
  | nil => simp [List.lookup_cons]
  | cons p t ih =>
    cases p with
    | mk pk pv =>
      cases hpk : R == pk with
      | true =>
        exfalso
        simp only [List.lookup_cons, hpk] at h
        exact Option.noConfusion h
      | false =>
        simp only [List.cons_append, List.lookup_cons, hpk] at h ⊢
        exact ih h

theorem lookup_append_single_ne (l : List (String × Attr)) {k R : String} (v : Attr)
    (hk : k ≠ R) : (l ++ [(R, v)]).lookup k = l.lookup k := by
  induction l with
  | nil =>
    have hkR : (k == R) = false := beq_eq_false_iff_ne.mpr hk
    simp [List.lookup_cons, hkR]
  | cons p t ih =>
    cases p with
    | mk pk pv =>
      simp only [List.cons_append, List.lookup_cons]
      cases hpk : k == pk with
      | true => rfl
      | false => exact ih

theorem getAttr_del_set (op : Op) (R k : String) (v : Attr) :
    ((op.delAttr R).setAttr R v).getAttr k =
      if k = R then some v else op.getAttr k := by
  have hdel : (op.delAttr R).attrs.lookup R = none := lookup_filter_self op.attrs R
  unfold Op.setAttr
  rw [hdel]
  simp only [Option.isSome_none, Bool.false_eq_true, if_false]
  by_cases hk : k = R
  · subst hk
    rw [if_pos rfl]
    exact lookup_append_single_self _ k v hdel
  · rw [if_neg hk]
    unfold Op.getAttr
    rw [lookup_append_single_ne _ v hk]
    exact lookup_filter_ne op.attrs hk

theorem operands_delAttr (op : Op) (R : String) : (op.delAttr R).operands = op.operands := rfl

theorem operands_setAttr (op : Op) (R : String) (v : Attr) :
    (op.setAttr R v).operands = op.operands := by
  unfold Op.setAttr
  split <;> rfl

/-- **C1.** For an operation carrying the zero-payload marker attribute,
`build_td_spec` returns with the operation's attribute set identical (by
key and value) to before the call — the marker is removed only transiently
for serialization and is re-added before returning — and the operand list
is untouched. -/
theorem build_td_spec_restores_marker_attr (op : Op)
    (config_list : List TuningConfiguration) (func_name : String)
    (h : op.getAttr ROOT_OP_ATTR_NAME = some Attr.unit) :
    (∀ k, ((build_td_spec op config_list func_name).2).getAttr k = op.getAttr k) ∧
      ((build_td_spec op config_list func_name).2).operands = op.operands := by
  have hcond : ¬ ((op.getAttr ROOT_OP_ATTR_NAME).isSome = true ∧
      op.getAttr ROOT_OP_ATTR_NAME ≠ some Attr.unit) := by
    intro hc
    exact hc.2 h
  have hres : (build_td_spec op config_list func_name).2 =
      (op.delAttr ROOT_OP_ATTR_NAME).setAttr ROOT_OP_ATTR_NAME Attr.unit := by
    unfold build_td_spec
    rw [if_neg hcond]
    simp [h]
  rw [hres]
  constructor
  · intro k
    rw [getAttr_del_set]
    by_cases hk : k = ROOT_OP_ATTR_NAME
    · subst hk
      rw [if_pos rfl, h]
    · rw [if_neg hk]
  · rw [operands_setAttr, operands_delAttr]

/-- Witness for C1 at a concrete operation with the marker and one other
attribute. -/
theorem build_td_spec_restores_marker_attr_witness :
    (Op.mk [("root_op", Attr.unit), ("tile", Attr.other "32")]
        [Value.mk 0 "%arg0" "tensor<4xf32>"] "linalg.generic").getAttr
        ROOT_OP_ATTR_NAME = some Attr.unit ∧
      ((∀ k, ((build_td_spec
          (Op.mk [("root_op", Attr.unit), ("tile", Attr.other "32")]
            [Value.mk 0 "%arg0" "tensor<4xf32>"] "linalg.generic")
          [TuningConfiguration.mk "tile_size" "32"] "match_op").2).getAttr k =
        (Op.mk [("root_op", Attr.unit), ("tile", Attr.other "32")]
          [Value.mk 0 "%arg0" "tensor<4xf32>"] "linalg.generic").getAttr k) ∧
      ((build_td_spec
          (Op.mk [("root_op", Attr.unit), ("tile", Attr.other "32")]
            [Value.mk 0 "%arg0" "tensor<4xf32>"] "linalg.generic")
          [TuningConfiguration.mk "tile_size" "32"] "match_op").2).operands =
        (Op.mk [("root_op", Attr.unit), ("tile", Attr.other "32")]
          [Value.mk 0 "%arg0" "tensor<4xf32>"] "linalg.generic").operands) :=
  ⟨rfl, build_td_spec_restores_marker_attr _ _ _ rfl⟩

/-- **C2.** For an operation whose marker attribute is present but of the
wrong concrete kind (not the zero-payload unit kind), `build_td_spec`
raises the contract-violation error before producing any text, and the
operation is left unmodified. -/
theorem build_td_spec_contract_violation (op : Op)
    (config_list : List TuningConfiguration) (func_name : String) (s : String)
    (h : op.getAttr ROOT_OP_ATTR_NAME = some (Attr.other s)) :
    build_td_spec op config_list func_name =
      (Except.error BuildError.contractViolation, op) := by
  unfold build_td_spec
  rw [if_pos]
  constructor
  · rw [h]; rfl
  · rw [h]; intro hc; cases hc

/-- Witness for C2 at a concrete operation whose marker is an integer
attribute instead of a unit attribute. -/
theorem build_td_spec_contract_violation_witness :
    (Op.mk [("root_op", Attr.other "1 : i64")] [] "linalg.matmul").getAttr
        ROOT_OP_ATTR_NAME = some (Attr.other "1 : i64") ∧
      build_td_spec (Op.mk [("root_op", Attr.other "1 : i64")] [] "linalg.matmul")
          [] "match_op" =
        (Except.error BuildError.contractViolation,
          Op.mk [("root_op", Attr.other "1 : i64")] [] "linalg.matmul") :=
  ⟨rfl, build_td_spec_contract_violation _ _ _ _ rfl⟩

/-- **C5.** For an operation without the marker attribute, `build_td_spec`
never mutates the operation: the operation is returned unchanged and its
textual serialization before and after the call are identical. -/
theorem build_td_spec_no_marker_no_mutation (op : Op)
    (config_list : List TuningConfiguration) (func_name : String)
    (h : op.getAttr ROOT_OP_ATTR_NAME = none) :
    (build_td_spec op config_list func_name).2 = op ∧
      Op.serialize (build_td_spec op config_list func_name).2 = Op.serialize op := by
  have h2 : (build_td_spec op config_list func_name).2 = op := by
    unfold build_td_spec
    rw [if_neg]
    · simp [h]
    · intro hc
      rw [h] at hc
      exact absurd hc.1 (by simp)
  exact ⟨h2, by rw [h2]⟩

/-- Witness for C5 at a concrete marker-free operation. -/
theorem build_td_spec_no_marker_no_mutation_witness :
    (Op.mk [("indexing_maps", Attr.other "[affine_map<(d0) -> (d0)>]")]
        [Value.mk 0 "%arg0" "tensor<4xf32>"] "linalg.generic").getAttr
        ROOT_OP_ATTR_NAME = none ∧
      ((build_td_spec
          (Op.mk [("indexing_maps", Attr.other "[affine_map<(d0) -> (d0)>]")]
            [Value.mk 0 "%arg0" "tensor<4xf32>"] "linalg.generic")
          [TuningConfiguration.mk "tile_size" "32"] "match_op").2 =
        Op.mk [("indexing_maps", Attr.other "[affine_map<(d0) -> (d0)>]")]
          [Value.mk 0 "%arg0" "tensor<4xf32>"] "linalg.generic" ∧
      Op.serialize (build_td_spec
          (Op.mk [("indexing_maps", Attr.other "[affine_map<(d0) -> (d0)>]")]
            [Value.mk 0 "%arg0" "tensor<4xf32>"] "linalg.generic")
          [TuningConfiguration.mk "tile_size" "32"] "match_op").2 =
        Op.serialize (Op.mk [("indexing_maps", Attr.other "[affine_map<(d0) -> (d0)>]")]
          [Value.mk 0 "%arg0" "tensor<4xf32>"] "linalg.generic")) :=
  ⟨rfl, build_td_spec_no_marker_no_mutation _ _ _ rfl⟩

end SpecBuilder

namespace Testing

/-- **C10.** `get_frozen_test_text_prompts` restores the global
random-number-generator state before returning, on both the normal and the
exceptional exit, and for fixed inputs it returns the same prompts
regardless of the generator state at the call — so subsequent random draws
are unaffected by the call. -/
theorem get_frozen_test_text_prompts_restores_rng (dataset : List String)
    (st st' : RngState) (num_prompts : Nat) (min_prompt_length : Option Nat) :
    (get_frozen_test_text_prompts dataset st num_prompts min_prompt_length).2 = st ∧
      (get_frozen_test_text_prompts dataset st num_prompts min_prompt_length).1 =
        (get_frozen_test_text_prompts dataset st' num_prompts min_prompt_length).1 := by
  simp only [get_frozen_test_text_prompts]
  cases hr : get_random_test_text_prompts dataset (seedState 13910398) num_prompts
      min_prompt_length with
  | ok r => cases r with | mk res st2 => exact ⟨rfl, rfl⟩
  | error e => exact ⟨rfl, rfl⟩

end Testing

namespace SpecBuilder

/-- Inversion helper shared by the claims about the rendered output: when
the marker attribute is absent or of the unit kind, `build_td_spec`
succeeds and its output is the record built by the else branch. -/
theorem build_td_spec_eq_ok (op : Op) (config_list : List TuningConfiguration)
    (func_name : String)
    (hroot : op.getAttr ROOT_OP_ATTR_NAME = none ∨
      op.getAttr ROOT_OP_ATTR_NAME = some Attr.unit) :
    (build_td_spec op config_list func_name).1 = Except.ok
      { bbargs := (collectBbargs op.operands []).1
        warnings := (collectBbargs op.operands []).2
        bbargs_str := String.intercalate ", " (collectBbargs op.operands []).1
        config_lines := config_list.enum.map (fun p => config_line p.2 p.1)
        yield_vars := config_list.enum.map (fun p => config_var p.2 p.1)
        config_block := String.intercalate "\n                "
          (config_list.enum.map (fun p => config_line p.2 p.1))
        yield_list := String.intercalate ", "
          ("%cont" :: config_list.enum.map (fun p => config_var p.2 p.1))
        yield_types := String.intercalate ", "
          ("!transform.any_op" :: List.replicate
            (config_list.enum.map (fun p => config_var p.2 p.1)).length
            "!transform.any_param")
        annotation_args := String.intercalate ", "
          ((List.range config_list.length).map annotation_arg)
        annotation_lines_list := config_list.enum.map (fun p => annotation_line p.2 p.1)
        annotation_lines := String.intercalate "\n"
          (config_list.enum.map (fun p => annotation_line p.2 p.1))
        root_operation := (if (op.getAttr ROOT_OP_ATTR_NAME).isSome then
          op.delAttr ROOT_OP_ATTR_NAME else op).serialize
        spec_text := moduleHeaderText
          ++ annotationSeqText
            (String.intercalate ", " ((List.range config_list.length).map annotation_arg))
            (String.intercalate "\n"
              (config_list.enum.map (fun p => annotation_line p.2 p.1)))
          ++ matcherSepText
          ++ matcherSeqText func_name
            (String.intercalate ", "
              ("!transform.any_op" :: List.replicate
                (config_list.enum.map (fun p => config_var p.2 p.1)).length
                "!transform.any_param"))
            (String.intercalate ", " (collectBbargs op.operands []).1)
            ((if (op.getAttr ROOT_OP_ATTR_NAME).isSome then
              op.delAttr ROOT_OP_ATTR_NAME else op).serialize)
            (String.intercalate "\n                "
              (config_list.enum.map (fun p => config_line p.2 p.1)))
            (String.intercalate ", "
              ("%cont" :: config_list.enum.map (fun p => config_var p.2 p.1)))
          ++ entrySepText
          ++ entryPointSeqText func_name
          ++ moduleFooterText } := by
  have hcond : ¬ ((op.getAttr ROOT_OP_ATTR_NAME).isSome = true ∧
      op.getAttr ROOT_OP_ATTR_NAME ≠ some Attr.unit) := by
    intro hc
    cases hroot with
    | inl h0 => rw [h0] at hc; exact absurd hc.1 (by simp)
    | inr h1 => exact hc.2 h1
  unfold build_td_spec
  rw [if_neg hcond]

/-- **C3.** For every configuration list (given the marker-kind contract
holds so rendering succeeds), the emitted text contains exactly
`len(configurations)` `transform.param.constant` lines and exactly
`len(configurations)` `transform.annotate` lines, and the i-th line of
each group is the line rendered from the i-th input configuration — both
groups appear in the order of the input list. -/
theorem build_td_spec_line_counts (op : Op) (config_list : List TuningConfiguration)
    (func_name : String)
    (hroot : op.getAttr ROOT_OP_ATTR_NAME = none ∨
      op.getAttr ROOT_OP_ATTR_NAME = some Attr.unit) :
    ∃ out, (build_td_spec op config_list func_name).1 = Except.ok out ∧
      out.config_lines.length = config_list.length ∧
      out.annotation_lines_list.length = config_list.length ∧
      (∀ i, out.config_lines[i]? =
        (config_list[i]?).map (fun c => config_line c i)) ∧
      (∀ i, out.annotation_lines_list[i]? =
        (config_list[i]?).map (fun c => annotation_line c i)) := by
  refine ⟨_, build_td_spec_eq_ok op config_list func_name hroot, ?_, ?_, ?_, ?_⟩
  · simp
  · simp
  · intro i
    simp only [List.getElem?_map, List.getElem?_enum]
    cases config_list[i]? <;> rfl
  · intro i
    simp only [List.getElem?_map, List.getElem?_enum]
    cases config_list[i]? <;> rfl

/-- Witness for C3 at a marked operation and a two-element configuration
list. -/
theorem build_td_spec_line_counts_witness :
    ((Op.mk [("root_op", Attr.unit)] [Value.mk 0 "%arg0" "i32"] "linalg.generic").getAttr
        ROOT_OP_ATTR_NAME = none ∨
      (Op.mk [("root_op", Attr.unit)] [Value.mk 0 "%arg0" "i32"] "linalg.generic").getAttr
        ROOT_OP_ATTR_NAME = some Attr.unit) ∧
      (∃ out, (build_td_spec
          (Op.mk [("root_op", Attr.unit)] [Value.mk 0 "%arg0" "i32"] "linalg.generic")
          [TuningConfiguration.mk "tile_size" "32", TuningConfiguration.mk "vector_size" "4"]
          "match_op").1 = Except.ok out ∧
        out.config_lines.length =
          [TuningConfiguration.mk "tile_size" "32",
            TuningConfiguration.mk "vector_size" "4"].length ∧
        out.annotation_lines_list.length =
          [TuningConfiguration.mk "tile_size" "32",
            TuningConfiguration.mk "vector_size" "4"].length ∧
        (∀ i, out.config_lines[i]? =
          (([TuningConfiguration.mk "tile_size" "32",
            TuningConfiguration.mk "vector_size" "4"])[i]?).map
            (fun c => config_line c i)) ∧
        (∀ i, out.annotation_lines_list[i]? =
          (([TuningConfiguration.mk "tile_size" "32",
            TuningConfiguration.mk "vector_size" "4"])[i]?).map
            (fun c => annotation_line c i))) :=
  ⟨Or.inr rfl, build_td_spec_line_counts _ _ _ (Or.inr rfl)⟩

theorem toDigitsCore_ten_append (f : Nat) : ∀ (n : Nat) (ds : List Char),
    Nat.toDigitsCore 10 f n ds = Nat.toDigitsCore 10 f n [] ++ ds := by
  induction f with
  | zero => intro n ds; rfl
  | succ f ih =>
    intro n ds
    simp only [Nat.toDigitsCore]
    by_cases h : n / 10 = 0
    · simp [h]
    · rw [if_neg h, if_neg h, ih (n / 10) [Nat.digitChar (n % 10)],
        ih (n / 10) (Nat.digitChar (n % 10) :: ds)]
      simp

theorem toDigitsCore_ten_eq_natDigits (f : Nat) : ∀ n, n < f →
    Nat.toDigitsCore 10 f n [] = natDigits n := by
  induction f with
  | zero => intro n h; exact absurd h (Nat.not_lt_zero n)
  | succ f ih =>
    intro n h
    simp only [Nat.toDigitsCore]
    by_cases h0 : n / 10 = 0
    · have hn : n < 10 := by omega
      rw [if_pos h0, natDigits, dif_pos hn, Nat.mod_eq_of_lt hn]
    · have hge : 10 ≤ n := by omega
      have hlt : n / 10 < f := by
        have := Nat.div_lt_self (show 0 < n by omega) (show 1 < 10 by omega)
        omega
      rw [if_neg h0, toDigitsCore_ten_append, ih (n / 10) hlt]
      conv_rhs => rw [natDigits]
      rw [dif_neg (show ¬ n < 10 by omega)]

theorem repr_data_eq_natDigits (n : Nat) : (Nat.repr n).data = natDigits n := by
  have h0 : (Nat.repr n).data = Nat.toDigits 10 n := rfl
  rw [h0, Nat.toDigits]
  exact toDigitsCore_ten_eq_natDigits (n + 1) n (Nat.lt_succ_self n)

theorem decodeDigits_natDigits (n : Nat) : decodeDigits (natDigits n) = n := by
  induction n using Nat.strong_induction_on with
  | _ n ih =>
    rw [natDigits]
    by_cases h : n < 10
    · rw [dif_pos h]
      have hd : ∀ m, m < 10 → (Nat.digitChar m).toNat - 48 = m := by decide
      simp only [decodeDigits, List.foldl_cons, List.foldl_nil]
      rw [hd n h]
      omega
    · rw [dif_neg h]
      simp only [decodeDigits, List.foldl_append, List.foldl_cons, List.foldl_nil]
      have hrec : List.foldl (fun a c => 10 * a + (c.toNat - 48)) 0 (natDigits (n / 10))
          = n / 10 :=
        ih (n / 10) (Nat.div_lt_self (by omega) (by omega))
      rw [hrec]
      have hd : ∀ m, m < 10 → (Nat.digitChar m).toNat - 48 = m := by decide
      rw [hd (n % 10) (Nat.mod_lt n (by omega))]
      omega

theorem underscore_notin_natDigits (n : Nat) : ∀ c ∈ natDigits n, c ≠ '_' := by
  induction n using Nat.strong_induction_on with
  | _ n ih =>
    rw [natDigits]
    have hd : ∀ m, m < 10 → Nat.digitChar m ≠ '_' := by decide
    by_cases h : n < 10
    · rw [dif_pos h]
      intro c hc
      rw [List.mem_singleton] at hc
      rw [hc]
      exact hd n h
    · rw [dif_neg h]
      intro c hc
      rcases List.mem_append.mp hc with h1 | h2
      · exact ih (n / 10) (Nat.div_lt_self (by omega) (by omega)) c h1
      · rw [List.mem_singleton] at h2
        rw [h2]
        exact hd (n % 10) (Nat.mod_lt n (by omega))

theorem nat_repr_injective {m n : Nat} (h : Nat.repr m = Nat.repr n) : m = n := by
  have hd : natDigits m = natDigits n := by
    rw [← repr_data_eq_natDigits, ← repr_data_eq_natDigits, h]
  calc m = decodeDigits (natDigits m) := (decodeDigits_natDigits m).symm
    _ = decodeDigits (natDigits n) := by rw [hd]
    _ = n := decodeDigits_natDigits n

theorem append_cons_inj_of_notin {c : Char} :
    ∀ {x₁ x₂ r₁ r₂ : List Char}, c ∉ x₁ → c ∉ x₂ →
      x₁ ++ c :: r₁ = x₂ ++ c :: r₂ → x₁ = x₂ ∧ r₁ = r₂ := by
  intro x₁
  induction x₁ with
  | nil =>
    intro x₂ r₁ r₂ h1 h2 h
    cases x₂ with
    | nil => simpa using h
    | cons b t =>
      exfalso
      simp only [List.nil_append, List.cons_append, List.cons.injEq] at h
      apply h2
      rw [h.1]
      exact List.mem_cons_self b t
  | cons a t ih =>
    intro x₂ r₁ r₂ h1 h2 h
    cases x₂ with
    | nil =>
      exfalso
      simp only [List.nil_append, List.cons_append, List.cons.injEq] at h
      apply h1
      rw [← h.1]
      exact List.mem_cons_self a t
    | cons b u =>
      simp only [List.cons_append, List.cons.injEq] at h
      obtain ⟨hab, ht⟩ := h
      have hrec := ih (fun hm => h1 (List.mem_cons_of_mem a hm))
        (fun hm => h2 (List.mem_cons_of_mem b hm)) ht
      exact ⟨by rw [hab, hrec.1], hrec.2⟩

theorem config_var_inj {c₁ c₂ : TuningConfiguration} {i₁ i₂ : Nat}
    (h : config_var c₁ i₁ = config_var c₂ i₂) : i₁ = i₂ := by
  have hrev := congrArg (fun s => s.data.reverse) h
  simp only [config_var, String.data_append, List.reverse_append] at hrev
  have h1 : '_' ∉ (Nat.repr i₁).data.reverse := by
    rw [List.mem_reverse]
    intro hm
    exact underscore_notin_natDigits i₁ '_' (repr_data_eq_natDigits i₁ ▸ hm) rfl
  have h2 : '_' ∉ (Nat.repr i₂).data.reverse := by
    rw [List.mem_reverse]
    intro hm
    exact underscore_notin_natDigits i₂ '_' (repr_data_eq_natDigits i₂ ▸ hm) rfl
  have hrev' : (Nat.repr i₁).data.reverse ++ '_' ::
        (c₁.name.data.reverse ++ ('%' :: [] : List Char)) =
      (Nat.repr i₂).data.reverse ++ '_' ::
        (c₂.name.data.reverse ++ ('%' :: [] : List Char)) := by
    simpa using hrev
  have hfin := append_cons_inj_of_notin h1 h2 hrev'
  have hdat : (Nat.repr i₁).data = (Nat.repr i₂).data :=
    List.reverse_injective hfin.1
  exact nat_repr_injective (String.ext hdat)

theorem le_fst_of_mem_enumFrom {α : Type} {p : Nat × α} :
    ∀ {l : List α} {k : Nat}, p ∈ List.enumFrom k l → k ≤ p.1 := by
  intro l
  induction l with
  | nil => intro k h; cases h
  | cons a t ih =>
    intro k h
    rw [List.enumFrom_cons] at h
    rcases List.mem_cons.mp h with h1 | h2
    · rw [h1]
    · have := ih h2
      omega

theorem enumFrom_config_var_nodup (cl : List TuningConfiguration) : ∀ n,
    ((List.enumFrom n cl).map (fun p => config_var p.2 p.1)).Nodup := by
  induction cl with
  | nil => intro n; simp
  | cons c t ih =>
    intro n
    rw [List.enumFrom_cons, List.map_cons, List.nodup_cons]
    constructor
    · intro hm
      rcases List.mem_map.mp hm with ⟨p, hp, he⟩
      have hge := le_fst_of_mem_enumFrom hp
      have heq : p.1 = n := config_var_inj he
      omega
    · exact ih (n + 1)

/-- **C6.** For every configuration list — including lists with duplicate
names — the SSA variable names generated for the constant-parameter
declarations (each derived from the configuration's name and its position
in the list) are pairwise distinct. -/
theorem build_td_spec_config_vars_distinct (op : Op)
    (config_list : List TuningConfiguration) (func_name : String)
    (hroot : op.getAttr ROOT_OP_ATTR_NAME = none ∨
      op.getAttr ROOT_OP_ATTR_NAME = some Attr.unit) :
    ∃ out, (build_td_spec op config_list func_name).1 = Except.ok out ∧
      out.yield_vars.Nodup := by
  refine ⟨_, build_td_spec_eq_ok op config_list func_name hroot, ?_⟩
  show ((List.enum config_list).map (fun p => config_var p.2 p.1)).Nodup
  rw [List.enum]
  exact enumFrom_config_var_nodup config_list 0

/-- Witness for C6 at a configuration list with a duplicate name whose
entries would collide if position were not appended. -/
theorem build_td_spec_config_vars_distinct_witness :
    ((Op.mk [("root_op", Attr.unit)] [] "linalg.matmul").getAttr
        ROOT_OP_ATTR_NAME = none ∨
      (Op.mk [("root_op", Attr.unit)] [] "linalg.matmul").getAttr
        ROOT_OP_ATTR_NAME = some Attr.unit) ∧
      (∃ out, (build_td_spec (Op.mk [("root_op", Attr.unit)] [] "linalg.matmul")
          [TuningConfiguration.mk "x" "1", TuningConfiguration.mk "x" "2"]
          "match_op").1 = Except.ok out ∧
        out.yield_vars.Nodup) :=
  ⟨Or.inr rfl, build_td_spec_config_vars_distinct _ _ _ (Or.inr rfl)⟩

theorem firstOccs_length_le : ∀ (l seen : List Value),
    (firstOccs l seen).length ≤ l.length := by
  intro l
  induction l with
  | nil => intro seen; simp [firstOccs]
  | cons v rest ih =>
    intro seen
    by_cases hv : v ∈ seen
    · rw [firstOccs, if_pos hv]
      exact Nat.le_trans (ih seen) (Nat.le_succ _)
    · rw [firstOccs, if_neg hv, List.length_cons, List.length_cons]
      exact Nat.succ_le_succ (ih (v :: seen))

theorem collectBbargs_eq_firstOccs : ∀ (l seen : List Value),
    collectBbargs l seen = ((firstOccs l seen).map bbargEntry,
      l.length - (firstOccs l seen).length) := by
  intro l
  induction l with
  | nil => intro seen; rfl
  | cons v rest ih =>
    intro seen
    by_cases hv : v ∈ seen
    · have hlen := firstOccs_length_le rest seen
      simp only [collectBbargs, firstOccs, if_pos hv, ih]
      rw [Prod.mk.injEq]
      constructor
      · rfl
      · simp only [List.length_cons]
        omega
    · have hlen := firstOccs_length_le rest (v :: seen)
      simp only [collectBbargs, firstOccs, if_neg hv, ih, List.map_cons]
      rw [Prod.mk.injEq]
      constructor
      · rfl
      · simp only [List.length_cons]
        omega

theorem mem_firstOccs {x : Value} : ∀ {l seen : List Value},
    (x ∈ firstOccs l seen ↔ x ∈ l ∧ x ∉ seen) := by
  intro l
  induction l with
  | nil => intro seen; simp [firstOccs]
  | cons v rest ih =>
    intro seen
    by_cases hv : v ∈ seen
    · rw [firstOccs, if_pos hv, ih]
      constructor
      · intro hx
        exact ⟨List.mem_cons_of_mem v hx.1, hx.2⟩
      · intro hx
        rcases List.mem_cons.mp hx.1 with h1 | h2
        · exact absurd (h1 ▸ hv) hx.2
        · exact ⟨h2, hx.2⟩
    · rw [firstOccs, if_neg hv]
      constructor
      · intro hx
        rcases List.mem_cons.mp hx with h1 | h2
        · exact ⟨h1 ▸ List.mem_cons_self v rest, h1 ▸ hv⟩
        · have := ih.mp h2
          exact ⟨List.mem_cons_of_mem v this.1,
            fun hm => this.2 (List.mem_cons_of_mem v hm)⟩
      · intro hx
        rcases List.mem_cons.mp hx.1 with h1 | h2
        · exact h1 ▸ List.mem_cons_self v _
        · by_cases hxv : x = v
          · exact hxv ▸ List.mem_cons_self v _
          · exact List.mem_cons_of_mem v (ih.mpr ⟨h2, by
              intro hm
              rcases List.mem_cons.mp hm with hm1 | hm2
              · exact hxv hm1
              · exact hx.2 hm2⟩)

theorem firstOccs_nodup : ∀ (l seen : List Value), (firstOccs l seen).Nodup := by
  intro l
  induction l with
  | nil => intro seen; simp [firstOccs]
  | cons v rest ih =>
    intro seen
    by_cases hv : v ∈ seen
    · rw [firstOccs, if_pos hv]
      exact ih seen
    · rw [firstOccs, if_neg hv, List.nodup_cons]
      refine ⟨?_, ih (v :: seen)⟩
      intro hm
      exact (mem_firstOccs.mp hm).2 (List.mem_cons_self v seen)

theorem count_map_bbargEntry_of_inj {v : Value} : ∀ {os : List Value},
    (∀ w ∈ os, bbargEntry w = bbargEntry v → w = v) → os.Nodup → v ∈ os →
      (os.map bbargEntry).count (bbargEntry v) = 1 := by
  intro os
  induction os with
  | nil => intro _ _ hm; cases hm
  | cons a t ih =>
    intro hinj hnd hm
    rw [List.map_cons]
    by_cases hav : a = v
    · subst hav
      rw [List.count_cons_self]
      have ht : (t.map bbargEntry).count (bbargEntry a) = 0 := by
        rw [List.count_eq_zero]
        intro hmem
        rcases List.mem_map.mp hmem with ⟨w, hw, he⟩
        have hwv : w = a := hinj w (List.mem_cons_of_mem a hw) he
        exact (List.nodup_cons.mp hnd).1 (hwv ▸ hw)
      rw [ht]
    · have hne : bbargEntry a ≠ bbargEntry v := by
        intro he
        exact hav (hinj a (List.mem_cons_self a t) he)
      rw [List.count_cons_of_ne (fun he => hne he.symm) ]
      have hmt : v ∈ t := by
        rcases List.mem_cons.mp hm with h1 | h2
        · exact absurd h1.symm hav
        · exact h2
      exact ih (fun w hw => hinj w (List.mem_cons_of_mem a hw))
        (List.nodup_cons.mp hnd).2 hmt

theorem length_eq_toFinset_card_add_one {l : List Value} {v : Value}
    (hv : l.count v = 2) (hother : ∀ w ∈ l, w ≠ v → l.count w = 1) :
    l.length = l.toFinset.card + 1 := by
  have hvmem : v ∈ l := List.count_pos_iff.mp (by omega)
  have hsum : ∑ a ∈ l.toFinset, l.count a = l.length := by
    simp
  have hv_in : v ∈ l.toFinset := List.mem_toFinset.mpr hvmem
  rw [← Finset.add_sum_erase _ _ hv_in] at hsum
  have hrest : ∑ x ∈ l.toFinset.erase v, l.count x = (l.toFinset.erase v).card := by
    rw [Finset.sum_const_nat (fun x hx => ?_), Nat.mul_one]
    have hx' := Finset.mem_erase.mp hx
    exact hother x (List.mem_toFinset.mp hx'.2) hx'.1
  rw [hv, hrest, Finset.card_erase_of_mem hv_in] at hsum
  have hpos : 0 < l.toFinset.card := Finset.card_pos.mpr ⟨v, hv_in⟩
  omega

theorem firstOccs_nil_length (l : List Value) :
    (firstOccs l []).length = l.toFinset.card := by
  have hnd := firstOccs_nodup l []
  have hset : (firstOccs l []).toFinset = l.toFinset := by
    ext x
    simp only [List.mem_toFinset]
    rw [mem_firstOccs]
    simp
  rw [← List.toFinset_card_of_nodup hnd, hset]

/-- **C7.** For an operation whose operand list contains the same operand
object twice (and no other duplicates), `build_td_spec` does not raise, it
emits only one block-argument declaration for that operand, and the
operand loop issues exactly one warning. -/
theorem build_td_spec_duplicate_operand (op : Op)
    (config_list : List TuningConfiguration) (func_name : String) (v : Value)
    (hroot : op.getAttr ROOT_OP_ATTR_NAME = none ∨
      op.getAttr ROOT_OP_ATTR_NAME = some Attr.unit)
    (hv : op.operands.count v = 2)
    (hother : ∀ w ∈ op.operands, w ≠ v → op.operands.count w = 1)
    (hinj : ∀ w ∈ op.operands, bbargEntry w = bbargEntry v → w = v) :
    ∃ out, (build_td_spec op config_list func_name).1 = Except.ok out ∧
      out.warnings = 1 ∧ out.bbargs.count (bbargEntry v) = 1 := by
  refine ⟨_, build_td_spec_eq_ok op config_list func_name hroot, ?_, ?_⟩
  · show (collectBbargs op.operands []).2 = 1
    rw [collectBbargs_eq_firstOccs, firstOccs_nil_length,
      length_eq_toFinset_card_add_one hv hother]
    omega
  · show ((collectBbargs op.operands []).1).count (bbargEntry v) = 1
    rw [collectBbargs_eq_firstOccs]
    have hvmem : v ∈ op.operands := List.count_pos_iff.mp (by omega)
    exact count_map_bbargEntry_of_inj
      (fun w hw => hinj w (mem_firstOccs.mp hw).1)
      (firstOccs_nodup op.operands [])
      (mem_firstOccs.mpr ⟨hvmem, List.not_mem_nil v⟩)

/-- Witness for C7 at an operation repeating one operand. -/
theorem build_td_spec_duplicate_operand_witness :
    ((Op.mk [("root_op", Attr.unit)]
        [Value.mk 0 "%arg0" "i32", Value.mk 0 "%arg0" "i32"] "linalg.generic").getAttr
          ROOT_OP_ATTR_NAME = none ∨
      (Op.mk [("root_op", Attr.unit)]
        [Value.mk 0 "%arg0" "i32", Value.mk 0 "%arg0" "i32"] "linalg.generic").getAttr
          ROOT_OP_ATTR_NAME = some Attr.unit) ∧
      (Op.mk [("root_op", Attr.unit)]
        [Value.mk 0 "%arg0" "i32", Value.mk 0 "%arg0" "i32"]
        "linalg.generic").operands.count (Value.mk 0 "%arg0" "i32") = 2 ∧
      (∃ out, (build_td_spec
          (Op.mk [("root_op", Attr.unit)]
            [Value.mk 0 "%arg0" "i32", Value.mk 0 "%arg0" "i32"] "linalg.generic")
          [] "match_op").1 = Except.ok out ∧
        out.warnings = 1 ∧
        out.bbargs.count (bbargEntry (Value.mk 0 "%arg0" "i32")) = 1) :=
  ⟨Or.inr rfl, by decide,
    build_td_spec_duplicate_operand _ [] "match_op" (Value.mk 0 "%arg0" "i32")
      (Or.inr rfl) (by decide)
      (by decide)
      (by decide)⟩

theorem nameBetweenQuotes_annotation_line (c : TuningConfiguration) (i : Nat)
    (hq : ∀ ch ∈ c.name.data, ch ≠ '\"') :
    nameBetweenQuotes (annotation_line c i) = c.name.data := by
  have hdata : (annotation_line c i).data
      = ("                transform.annotate %op " : String).data
        ++ '\"' :: (c.name.data
        ++ '\"' :: ((" = %cfg_" : String).data ++ ((Nat.repr i).data
            ++ (" : !transform.any_op, !transform.any_param" : String).data))) := by
    simp [annotation_line]
  unfold nameBetweenQuotes
  rw [hdata]
  rw [List.dropWhile_append_of_pos (by decide)]
  rw [List.dropWhile_cons, if_neg (by decide)]
  rw [List.drop_one, List.tail_cons]
  rw [List.takeWhile_append_of_pos (fun a ha => decide_eq_true (hq a ha))]
  rw [List.takeWhile_cons, if_neg (by decide)]
  rw [List.append_nil]

theorem snd_mem_of_mem_enumFrom {α : Type} {p : Nat × α} :
    ∀ {l : List α} {k : Nat}, p ∈ List.enumFrom k l → p.2 ∈ l := by
  intro l
  induction l with
  | nil => intro k h; cases h
  | cons a t ih =>
    intro k h
    rw [List.enumFrom_cons] at h
    rcases List.mem_cons.mp h with h1 | h2
    · rw [h1]
      exact List.mem_cons_self a t
    · exact List.mem_cons_of_mem a (ih h2)

theorem countP_enumFrom_snd {α : Type} (q : α → Bool) :
    ∀ (l : List α) (n : Nat),
      (List.enumFrom n l).countP (fun p => q p.2) = l.countP q := by
  intro l
  induction l with
  | nil => intro n; rfl
  | cons a t ih =>
    intro n
    rw [List.enumFrom_cons, List.countP_cons, List.countP_cons, ih (n + 1)]

/-- **C8.** For a configuration list containing two entries with the same
name (given the marker-kind contract and quote-free configuration names),
`build_td_spec` does not raise, and the emitted annotation sequence
contains exactly two `transform.annotate` lines whose quoted attribute key
is that name, in emission order. -/
theorem build_td_spec_duplicate_config_names (op : Op)
    (config_list : List TuningConfiguration) (func_name nm : String)
    (hroot : op.getAttr ROOT_OP_ATTR_NAME = none ∨
      op.getAttr ROOT_OP_ATTR_NAME = some Attr.unit)
    (hq : ∀ c ∈ config_list, ∀ ch ∈ c.name.data, ch ≠ '\"')
    (hnm : config_list.countP (fun c => decide (c.name = nm)) = 2) :
    ∃ out, (build_td_spec op config_list func_name).1 = Except.ok out ∧
      out.annotation_lines_list.countP
        (fun s => decide (nameBetweenQuotes s = nm.data)) = 2 := by
  refine ⟨_, build_td_spec_eq_ok op config_list func_name hroot, ?_⟩
  show ((List.enum config_list).map (fun p => annotation_line p.2 p.1)).countP
      (fun s => decide (nameBetweenQuotes s = nm.data)) = 2
  rw [List.countP_map]
  have hcong : ∀ x ∈ List.enum config_list,
      ((fun s => decide (nameBetweenQuotes s = nm.data)) ∘
        (fun p => annotation_line p.2 p.1)) x ↔
      (fun p : Nat × TuningConfiguration => decide (p.2.name = nm)) x := by
    intro x hx
    have hmem : x.2 ∈ config_list := snd_mem_of_mem_enumFrom hx
    simp only [Function.comp_apply, decide_eq_true_eq]
    rw [nameBetweenQuotes_annotation_line x.2 x.1 (hq x.2 hmem)]
    constructor
    · intro h
      exact String.ext h
    · intro h
      rw [h]
  rw [List.countP_congr hcong]
  rw [List.enum]
  rw [countP_enumFrom_snd (fun c => decide (c.name = nm)) config_list 0]
  exact hnm

/-- Witness for C8 at a configuration list with two entries named `x`. -/
theorem build_td_spec_duplicate_config_names_witness :
    ((Op.mk [("root_op", Attr.unit)] [] "linalg.matmul").getAttr
        ROOT_OP_ATTR_NAME = none ∨
      (Op.mk [("root_op", Attr.unit)] [] "linalg.matmul").getAttr
        ROOT_OP_ATTR_NAME = some Attr.unit) ∧
      ([TuningConfiguration.mk "x" "1", TuningConfiguration.mk "x" "2"].countP
        (fun c => decide (c.name = "x")) = 2) ∧
      (∃ out, (build_td_spec (Op.mk [("root_op", Attr.unit)] [] "linalg.matmul")
          [TuningConfiguration.mk "x" "1", TuningConfiguration.mk "x" "2"]
          "match_op").1 = Except.ok out ∧
        out.annotation_lines_list.countP
          (fun s => decide (nameBetweenQuotes s = ("x" : String).data)) = 2) :=
  ⟨Or.inr rfl, by decide,
    build_td_spec_duplicate_config_names _ _ "match_op" "x" (Or.inr rfl)
      (by decide) (by decide)⟩

theorem isPrefix_data_append (p : List Char) (s t : String) (h : p <+: s.data) :
    p <+: (s ++ t).data := by
  rw [String.data_append]
  exact h.trans (List.prefix_append s.data t.data)

/-- **C9.** The output of `build_td_spec` is a single textual module that
decomposes into exactly three named-sequence declarations — the annotation
sequence `@apply_op_config`, the matcher named by the caller-chosen
`func_name`, and the fixed entry point `@__kernel_config` — separated by
glue text containing no further `transform.named_sequence` declaration;
and the entry point runs `transform.foreach_match` over all matches of the
caller-chosen matcher, applying the annotation sequence to each, and
yields the resulting (possibly unmodified) root. -/
theorem build_td_spec_three_sequences (op : Op)
    (config_list : List TuningConfiguration) (func_name : String)
    (hroot : op.getAttr ROOT_OP_ATTR_NAME = none ∨
      op.getAttr ROOT_OP_ATTR_NAME = some Attr.unit) :
    ∃ out, (build_td_spec op config_list func_name).1 = Except.ok out ∧
      out.spec_text = moduleHeaderText
        ++ annotationSeqText out.annotation_args out.annotation_lines
        ++ matcherSepText
        ++ matcherSeqText func_name out.yield_types out.bbargs_str
            out.root_operation out.config_block out.yield_list
        ++ entrySepText
        ++ entryPointSeqText func_name
        ++ moduleFooterText ∧
      (¬ ("transform.named_sequence" : String).data <:+: moduleHeaderText.data) ∧
      (¬ ("transform.named_sequence" : String).data <:+: matcherSepText.data) ∧
      (¬ ("transform.named_sequence" : String).data <:+: entrySepText.data) ∧
      (¬ ("transform.named_sequence" : String).data <:+: moduleFooterText.data) ∧
      (("transform.named_sequence @apply_op_config" : String).data <+:
        (annotationSeqText out.annotation_args out.annotation_lines).data) ∧
      (("transform.named_sequence @" ++ func_name).data <+:
        (matcherSeqText func_name out.yield_types out.bbargs_str
          out.root_operation out.config_block out.yield_list).data) ∧
      (("transform.named_sequence\n        @__kernel_config" : String).data <+:
        (entryPointSeqText func_name).data) ∧
      (("transform.foreach_match in %variant_op\n                @" ++ func_name
        ++ " -> @apply_op_config").data <:+: (entryPointSeqText func_name).data) ∧
      (("transform.yield %res : !transform.any_op" : String).data <:+:
        (entryPointSeqText func_name).data) := by
  refine ⟨_, build_td_spec_eq_ok op config_list func_name hroot,
    rfl, by decide, by decide, by decide, by decide, ?_, ?_, ?_, ?_, ?_⟩
  · unfold annotationSeqText
    apply isPrefix_data_append
    apply isPrefix_data_append
    apply isPrefix_data_append
    apply isPrefix_data_append
    decide
  · unfold matcherSeqText
    apply isPrefix_data_append
    apply isPrefix_data_append
    apply isPrefix_data_append
    apply isPrefix_data_append
    apply isPrefix_data_append
    apply isPrefix_data_append
    apply isPrefix_data_append
    apply isPrefix_data_append
    apply isPrefix_data_append
    apply isPrefix_data_append
    apply isPrefix_data_append
    apply isPrefix_data_append
    apply isPrefix_data_append
    exact List.prefix_rfl
  · unfold entryPointSeqText
    apply isPrefix_data_append
    apply isPrefix_data_append
    decide
  · refine ⟨("transform.named_sequence\n        @__kernel_config(%variant_op: !transform.any_op \x7btransform.consumed\x7d) -> !transform.any_op\n            attributes \x7b iree_codegen.tuning_spec_entrypoint \x7d \x7b\n            %res = " : String).data,
      ("\n            : (!transform.any_op) -> !transform.any_op\n            transform.yield %res : !transform.any_op\n        \x7d" : String).data, ?_⟩
    simp [entryPointSeqText]
  · refine ⟨(("transform.named_sequence\n        @__kernel_config(%variant_op: !transform.any_op \x7btransform.consumed\x7d) -> !transform.any_op\n            attributes \x7b iree_codegen.tuning_spec_entrypoint \x7d \x7b\n            %res = transform.foreach_match in %variant_op\n                @"
        ++ func_name ++ " -> @apply_op_config\n            : (!transform.any_op) -> !transform.any_op\n            ") : String).data,
      ("\n        \x7d" : String).data, ?_⟩
    simp [entryPointSeqText]

/-- Witness for C9 at a concrete operation, configuration list and matcher
name. -/
theorem build_td_spec_three_sequences_witness :
    ((Op.mk [("root_op", Attr.unit)] [Value.mk 0 "%arg0" "i32"] "linalg.generic").getAttr
        ROOT_OP_ATTR_NAME = none ∨
      (Op.mk [("root_op", Attr.unit)] [Value.mk 0 "%arg0" "i32"] "linalg.generic").getAttr
        ROOT_OP_ATTR_NAME = some Attr.unit) ∧
      (∃ out, (build_td_spec
          (Op.mk [("root_op", Attr.unit)] [Value.mk 0 "%arg0" "i32"] "linalg.generic")
          [TuningConfiguration.mk "tile_size" "32"] "match_op").1 = Except.ok out ∧
        out.spec_text = moduleHeaderText
          ++ annotationSeqText out.annotation_args out.annotation_lines
          ++ matcherSepText
          ++ matcherSeqText "match_op" out.yield_types out.bbargs_str
              out.root_operation out.config_block out.yield_list
          ++ entrySepText
          ++ entryPointSeqText "match_op"
          ++ moduleFooterText ∧
        (¬ ("transform.named_sequence" : String).data <:+: moduleHeaderText.data) ∧
        (¬ ("transform.named_sequence" : String).data <:+: matcherSepText.data) ∧
        (¬ ("transform.named_sequence" : String).data <:+: entrySepText.data) ∧
        (¬ ("transform.named_sequence" : String).data <:+: moduleFooterText.data) ∧
        (("transform.named_sequence @apply_op_config" : String).data <+:
          (annotationSeqText out.annotation_args out.annotation_lines).data) ∧
        (("transform.named_sequence @" ++ "match_op").data <+:
          (matcherSeqText "match_op" out.yield_types out.bbargs_str
            out.root_operation out.config_block out.yield_list).data) ∧
        (("transform.named_sequence\n        @__kernel_config" : String).data <+:
          (entryPointSeqText "match_op").data) ∧
        (("transform.foreach_match in %variant_op\n                @" ++ "match_op"
          ++ " -> @apply_op_config").data <:+: (entryPointSeqText "match_op").data) ∧
        (("transform.yield %res : !transform.any_op" : String).data <:+:
          (entryPointSeqText "match_op").data)) :=
  ⟨Or.inr rfl, build_td_spec_three_sequences _ _ "match_op" (Or.inr rfl)⟩

/-- **C4 counterexample.** The claim says the matcher yields the matched
operand values (the `%ins, %outs` results of the match operation) followed
by the configuration results; the code instead yields the matched
operation handle `%cont` followed by the configuration results.  At a
concrete input the two yield lists differ. -/
theorem build_td_spec_yield_not_operand_values :
    (((build_td_spec
        (Op.mk [("root_op", Attr.unit)] [Value.mk 0 "%arg0" "tensor<4xf32>"]
          "linalg.generic")
        [TuningConfiguration.mk "tile_size" "32"] "match_op").1).toOption.map
        (fun out => out.yield_list)) ≠
      (((build_td_spec
        (Op.mk [("root_op", Attr.unit)] [Value.mk 0 "%arg0" "tensor<4xf32>"]
          "linalg.generic")
        [TuningConfiguration.mk "tile_size" "32"] "match_op").1).toOption.map
        (fun out => spec_claimed_yield_list out)) := by
  decide

/-- **C4 (amended).** The matcher sequence named by the caller-supplied
sequence name has as its body the captured marker-stripped textual
serialization of the operation, is parameterized by the operand
block-argument list, and yields the matched operation handle (`%cont`)
plus one result per configuration, in the same order as the
constant-parameter declarations. -/
theorem build_td_spec_matcher_structure (op : Op)
    (config_list : List TuningConfiguration) (func_name : String)
    (hroot : op.getAttr ROOT_OP_ATTR_NAME = none ∨
      op.getAttr ROOT_OP_ATTR_NAME = some Attr.unit) :
    ∃ out, (build_td_spec op config_list func_name).1 = Except.ok out ∧
      out.root_operation = (if (op.getAttr ROOT_OP_ATTR_NAME).isSome then
        op.delAttr ROOT_OP_ATTR_NAME else op).serialize ∧
      out.bbargs_str = String.intercalate ", "
        ((firstOccs op.operands []).map bbargEntry) ∧
      (("^bb0(" ++ out.bbargs_str ++ "):\n              "
        ++ out.root_operation).data <:+:
        (matcherSeqText func_name out.yield_types out.bbargs_str
          out.root_operation out.config_block out.yield_list).data) ∧
      (("transform.named_sequence @" ++ func_name).data <+:
        (matcherSeqText func_name out.yield_types out.bbargs_str
          out.root_operation out.config_block out.yield_list).data) ∧
      out.yield_list = String.intercalate ", " ("%cont" :: out.yield_vars) ∧
      out.yield_vars.length = config_list.length ∧
      (∀ i, out.yield_vars[i]? =
        (config_list[i]?).map (fun c => config_var c i)) ∧
      out.yield_types = String.intercalate ", "
        ("!transform.any_op" :: List.replicate config_list.length
          "!transform.any_param") := by
  refine ⟨_, build_td_spec_eq_ok op config_list func_name hroot,
    rfl, ?_, ?_, ?_, rfl, by simp, ?_, by simp⟩
  · show String.intercalate ", " (collectBbargs op.operands []).1 = _
    rw [collectBbargs_eq_firstOccs]
  · refine ⟨("transform.named_sequence @" ++ func_name
      ++ "(%cont: !transform.any_op \x7btransform.readonly\x7d)\n            -> ("
      ++ (String.intercalate ", "
        ("!transform.any_op" :: List.replicate
          ((List.enum config_list).map (fun p => config_var p.2 p.1)).length
          "!transform.any_param"))
      ++ ") \x7b\n            %ins, %outs = transform.iree.match.cast_compatible_dag_from_root %cont \x7b\n              ").data,
      (("\n            \x7d : (!transform.any_op) -> (!transform.any_value, !transform.any_value)\n            "
        ++ (String.intercalate "\n                "
          ((List.enum config_list).map (fun p => config_line p.2 p.1)))
        ++ "\n            transform.yield "
        ++ (String.intercalate ", "
          ("%cont" :: (List.enum config_list).map (fun p => config_var p.2 p.1)))
        ++ " : "
        ++ (String.intercalate ", "
          ("!transform.any_op" :: List.replicate
            ((List.enum config_list).map (fun p => config_var p.2 p.1)).length
            "!transform.any_param"))
        ++ "\n        \x7d") : String).data, ?_⟩
    simp [matcherSeqText]
  · unfold matcherSeqText
    apply isPrefix_data_append
    apply isPrefix_data_append
    apply isPrefix_data_append
    apply isPrefix_data_append
    apply isPrefix_data_append
    apply isPrefix_data_append
    apply isPrefix_data_append
    apply isPrefix_data_append
    apply isPrefix_data_append
    apply isPrefix_data_append
    apply isPrefix_data_append
    apply isPrefix_data_append
    apply isPrefix_data_append
    exact List.prefix_rfl
  · intro i
    simp only [List.getElem?_map, List.getElem?_enum]
    cases config_list[i]? <;> rfl

/-- Witness for the amended C4 at a concrete operation and configuration
list. -/
theorem build_td_spec_matcher_structure_witness :
    ((Op.mk [("root_op", Attr.unit)] [Value.mk 0 "%arg0" "i32"] "linalg.generic").getAttr
        ROOT_OP_ATTR_NAME = none ∨
      (Op.mk [("root_op", Attr.unit)] [Value.mk 0 "%arg0" "i32"] "linalg.generic").getAttr
        ROOT_OP_ATTR_NAME = some Attr.unit) ∧
      (∃ out, (build_td_spec
          (Op.mk [("root_op", Attr.unit)] [Value.mk 0 "%arg0" "i32"] "linalg.generic")
          [TuningConfiguration.mk "tile_size" "32"] "match_op").1 = Except.ok out ∧
        out.root_operation = (if ((Op.mk [("root_op", Attr.unit)]
            [Value.mk 0 "%arg0" "i32"] "linalg.generic").getAttr
            ROOT_OP_ATTR_NAME).isSome then
          (Op.mk [("root_op", Attr.unit)] [Value.mk 0 "%arg0" "i32"]
            "linalg.generic").delAttr ROOT_OP_ATTR_NAME else
          Op.mk [("root_op", Attr.unit)] [Value.mk 0 "%arg0" "i32"]
            "linalg.generic").serialize ∧
        out.bbargs_str = String.intercalate ", "
          ((firstOccs (Op.mk [("root_op", Attr.unit)] [Value.mk 0 "%arg0" "i32"]
            "linalg.generic").operands []).map bbargEntry) ∧
        (("^bb0(" ++ out.bbargs_str ++ "):\n              "
          ++ out.root_operation).data <:+:
          (matcherSeqText "match_op" out.yield_types out.bbargs_str
            out.root_operation out.config_block out.yield_list).data) ∧
        (("transform.named_sequence @" ++ "match_op").data <+:
          (matcherSeqText "match_op" out.yield_types out.bbargs_str
            out.root_operation out.config_block out.yield_list).data) ∧
        out.yield_list = String.intercalate ", " ("%cont" :: out.yield_vars) ∧
        out.yield_vars.length =
          [TuningConfiguration.mk "tile_size" "32"].length ∧
        (∀ i, out.yield_vars[i]? =
          (([TuningConfiguration.mk "tile_size" "32"])[i]?).map
            (fun c => config_var c i)) ∧
        out.yield_types = String.intercalate ", "
          ("!transform.any_op" :: List.replicate
            [TuningConfiguration.mk "tile_size" "32"].length
            "!transform.any_param")) :=
  ⟨Or.inr rfl, build_td_spec_matcher_structure _ _ "match_op" (Or.inr rfl)⟩

end SpecBuilder
